import Mathlib

/-!
Shallow embedding of `src/App.tsx` of miniSocialMediaTS: a single-page
application holding a list of posts, a compose/edit draft, and a
light/dark theme.  The React component state (`useState` hooks) is
collected into one `AppState` record, and each event handler of the
component becomes a pure state transformer.  JavaScript truthiness on
`string | undefined` / `string | null` values is modelled explicitly by
`truthy`.
-/

namespace MiniSocial

/-- `Post` from `App.tsx` (lines 4-10): `id`, optional `imageDataUrl`,
`title`, `comment`, `createdAt` (a `Date.now()` millisecond count,
modelled as `Nat`). -/
structure Post where
  id : String
  imageDataUrl : Option String
  title : String
  comment : String
  createdAt : Nat
deriving Repr, DecidableEq

/-- The component state of `App`: the `posts` list, the `editingId`
(`string | null`), and the form state `title`, `comment`, `imageFile`
(a `File | null`, modelled by an opaque file name), `imagePreview`
(`string | undefined`), plus the `theme` string. -/
structure AppState where
  posts : List Post
  editingId : Option String
  title : String
  comment : String
  imageFile : Option String
  imagePreview : Option String
  theme : String
deriving Repr, DecidableEq

/-- JavaScript truthiness of an optional string: `undefined`/`null` and
`""` are falsy, every other string is truthy. -/
def truthy : Option String → Bool
  | none => false
  | some s => !(s == "")

/-- Model of JS `String.prototype.trim`: strip leading and trailing
whitespace characters. -/
def jsTrim (s : String) : String :=
  String.mk (((s.data.dropWhile Char.isWhitespace).reverse.dropWhile Char.isWhitespace).reverse)

/-- `clearForm` (lines 66-74): resets the draft fields and `editingId`;
the file-input reset and refocus are DOM side effects outside the
state. -/
def clearForm (st : AppState) : AppState :=
  { st with
      title := ""
      comment := ""
      imageFile := none
      imagePreview := none
      editingId := none }

/-- The fresh post built on the create path of `handleAddOrUpdate`
(lines 98-104). -/
def mkNewPost (newId : String) (now : Nat) (trimmedTitle trimmedComment : String)
    (imagePreview : Option String) : Post :=
  { id := newId
    imageDataUrl := imagePreview
    title := trimmedTitle
    comment := trimmedComment
    createdAt := now }

/-- `handleAddOrUpdate` (lines 76-107).  The generated id
(`cryptoRandomId()`) and the current time (`Date.now()`) are inputs of
the model.  `title.trim() || "Sin título"` is the JS falsy-default;
the guard `!trimmedComment && !imagePreview` and the test
`if (editingId)` use JS truthiness. -/
def handleAddOrUpdate (newId : String) (now : Nat) (st : AppState) : AppState :=
  let trimmedComment := jsTrim st.comment
  let trimmedTitle := if jsTrim st.title = "" then "Sin título" else jsTrim st.title
  if trimmedComment = "" ∧ truthy st.imagePreview = false then
    -- nothing to add; only the comment field is refocused
    st
  else
    let addNew :=
      clearForm { st with
        posts := mkNewPost newId now trimmedTitle trimmedComment st.imagePreview :: st.posts }
    match st.editingId with
    | some eid =>
        if eid = "" then addNew
        else
          clearForm { st with
            posts := st.posts.map fun p =>
              if p.id = eid then
                { p with
                    title := trimmedTitle
                    comment := trimmedComment
                    imageDataUrl := st.imagePreview }
              else p }
    | none => addNew

/-- `startEdit` (lines 109-118): look the post up by id; if absent,
no-op; otherwise copy its fields into the draft and set `editingId`.
The raw `imageFile` is intentionally not touched. -/
def startEdit (postId : String) (st : AppState) : AppState :=
  match st.posts.find? (fun x => x.id == postId) with
  | none => st
  | some p =>
      { st with
          editingId := some p.id
          title := p.title
          comment := p.comment
          imagePreview := p.imageDataUrl }

/-- `removePost` (lines 120-123): the `confirm` dialog's answer is an
input of the model; declining returns without mutation. -/
def removePost (confirmed : Bool) (postId : String) (st : AppState) : AppState :=
  if !confirmed then st
  else { st with posts := st.posts.filter fun x => !(x.id == postId) }

/-- `handleEmojiClick` (lines 125-129): append the token to the comment. -/
def handleEmojiClick (e : String) (st : AppState) : AppState :=
  { st with comment := st.comment ++ e }

/-- The theme-toggle button handler (line 152):
`setTheme(t => t === "light" ? "dark" : "light")`. -/
def toggleTheme (st : AppState) : AppState :=
  { st with theme := if st.theme = "light" then "dark" else "light" }

/-- Startup read of the posts key (lines 18-26).  The outer `Option`
is presence of the key in the store; the inner `Option` is success of
`JSON.parse` (the `try`/`catch` returns `[]` on a parse exception). -/
def loadPosts (stored : Option (Option (List Post))) : List Post :=
  match stored with
  | none => []
  | some none => []
  | some (some ps) => ps

/-- Startup read of the theme key (lines 39-42):
`localStorage.getItem(THEME_KEY) ?? "light"`; a present value is used
verbatim (the `as` cast performs no validation). -/
def loadTheme (stored : Option String) : String :=
  match stored with
  | none => "light"
  | some t => t

/-- The data-model invariant on a stored post: non-empty comment or a
(truthy) image. -/
def PostValid (p : Post) : Prop :=
  p.comment ≠ "" ∨ truthy p.imageDataUrl = true

instance (p : Post) : Decidable (PostValid p) := by
  unfold PostValid; infer_instance

/-! ### Persistence round trip

`App.tsx` persists posts with `JSON.stringify(posts)` (line 45) and
reads them back with `JSON.parse(raw) as Post[]` (line 21).  The host
`JSON` object is modelled at the level of the JSON value tree: a
`Post` becomes a JSON object whose `imageDataUrl` key is omitted when
the field is `undefined` (exactly what `JSON.stringify` does), and
reading looks each field up by key. -/

/-- JSON value tree produced by the host serializer. -/
inductive JVal where
  | str : String → JVal
  | num : Nat → JVal
  | arr : List JVal → JVal
  | obj : List (String × JVal) → JVal

/-- Key lookup in a JSON object's field list. -/
def jLookup (k : String) : List (String × JVal) → Option JVal
  | [] => none
  | (k', v) :: rest => if k' == k then some v else jLookup k rest

/-- Read a JSON value as a string. -/
def asStr : JVal → Option String
  | .str s => some s
  | _ => none

/-- Read a JSON value as a number. -/
def asNum : JVal → Option Nat
  | .num n => some n
  | _ => none

/-- `JSON.stringify` on one post: the object literal's fields in
declaration order, with the `imageDataUrl` key dropped when the field
is `undefined`. -/
def encodePost (p : Post) : JVal :=
  .obj ([("id", .str p.id)]
    ++ (match p.imageDataUrl with
        | none => []
        | some u => [("imageDataUrl", .str u)])
    ++ [("title", .str p.title), ("comment", .str p.comment),
        ("createdAt", .num p.createdAt)])

/-- `JSON.stringify` on the posts array. -/
def encodePosts (ps : List Post) : JVal :=
  .arr (ps.map encodePost)

/-- Reading one post back out of its JSON object: a missing
`imageDataUrl` key yields `undefined`. -/
def decodePost : JVal → Option Post
  | .obj fields =>
      match (jLookup "id" fields).bind asStr,
            (jLookup "title" fields).bind asStr,
            (jLookup "comment" fields).bind asStr,
            (jLookup "createdAt" fields).bind asNum with
      | some i, some t, some c, some ca =>
          some { id := i
                 imageDataUrl := (jLookup "imageDataUrl" fields).bind asStr
                 title := t
                 comment := c
                 createdAt := ca }
      | _, _, _, _ => none
  | _ => none

/-- Reading a list of posts element by element, in order. -/
def decodePostList : List JVal → Option (List Post)
  | [] => some []
  | v :: vs =>
      match decodePost v, decodePostList vs with
      | some p, some ps => some (p :: ps)
      | _, _ => none

/-- `JSON.parse` of a persisted posts value. -/
def decodePosts : JVal → Option (List Post)
  | .arr vs => decodePostList vs
  | _ => none

/-! ### Derived notions and helper lemmas -/

/-- The validity condition of a submission: non-empty trimmed comment
or a truthy image preview (the negation of the early-return guard of
`handleAddOrUpdate`, line 79). -/
def DraftOk (st : AppState) : Prop :=
  jsTrim st.comment ≠ "" ∨ truthy st.imagePreview = true

instance (st : AppState) : Decidable (DraftOk st) := by
  unfold DraftOk; infer_instance

/-- The `trimmedTitle` local of `handleAddOrUpdate` (line 78): the
trimmed title, with the placeholder substituted when it is empty. -/
def storedTitle (st : AppState) : String :=
  if jsTrim st.title = "" then "Sin título" else jsTrim st.title

/-- The post stored by the update branch of `handleAddOrUpdate`
(line 90). -/
def updatedPost (st : AppState) (p : Post) : Post :=
  { p with
      title := storedTitle st
      comment := jsTrim st.comment
      imageDataUrl := st.imagePreview }

/-- An invalid submission returns before touching any state. -/
theorem submit_invalid_eq (newId : String) (now : Nat) (st : AppState)
    (hc : jsTrim st.comment = "") (hi : truthy st.imagePreview = false) :
    handleAddOrUpdate newId now st = st := by
  unfold handleAddOrUpdate
  simp [hc, hi]

/-- A valid submission with no (truthy) `editingId` takes the create
branch: the fresh post is prepended and the form is cleared. -/
theorem submit_create_eq (newId : String) (now : Nat) (st : AppState)
    (hidle : st.editingId = none ∨ st.editingId = some "") (hvalid : DraftOk st) :
    handleAddOrUpdate newId now st =
      { posts := mkNewPost newId now (storedTitle st) (jsTrim st.comment) st.imagePreview
            :: st.posts
        editingId := none
        title := ""
        comment := ""
        imageFile := none
        imagePreview := none
        theme := st.theme } := by
  have hg : ¬ (jsTrim st.comment = "" ∧ truthy st.imagePreview = false) := by
    rcases hvalid with h | h
    · exact fun hcon => h hcon.1
    · exact fun hcon => by rw [h] at hcon; exact absurd hcon.2 (by simp)
  unfold handleAddOrUpdate
  rcases hidle with h | h
  · rw [if_neg hg, h]
    simp [clearForm, storedTitle]
  · rw [if_neg hg, h]
    simp [clearForm, storedTitle]

/-- A valid submission with a non-empty `editingId` takes the update
branch: posts are mapped and the form is cleared. -/
theorem submit_update_eq (newId : String) (now : Nat) (st : AppState) (eid : String)
    (heid : st.editingId = some eid) (hne : eid ≠ "") (hvalid : DraftOk st) :
    handleAddOrUpdate newId now st =
      { posts := st.posts.map fun p => if p.id = eid then updatedPost st p else p
        editingId := none
        title := ""
        comment := ""
        imageFile := none
        imagePreview := none
        theme := st.theme } := by
  have hg : ¬ (jsTrim st.comment = "" ∧ truthy st.imagePreview = false) := by
    rcases hvalid with h | h
    · exact fun hcon => h hcon.1
    · exact fun hcon => by rw [h] at hcon; exact absurd hcon.2 (by simp)
  unfold handleAddOrUpdate
  rw [if_neg hg, heid]
  simp [clearForm, storedTitle, updatedPost, hne]

/-- Mapping a conditional update over a list none of whose elements
match is the identity. -/
theorem map_update_id (f : Post → Post) (eid : String) :
    ∀ (l : List Post), (∀ q ∈ l, q.id ≠ eid) →
      (l.map fun q => if q.id = eid then f q else q) = l := by
  intro l hl
  induction l with
  | nil => rfl
  | cons a t ih =>
      simp only [List.map_cons]
      rw [if_neg (hl a (List.mem_cons_self a t)), ih fun q hq => hl q (List.mem_cons_of_mem a hq)]

/-- Mapping a conditional update over a list whose only matching
element is `p` rewrites exactly that entry. -/
theorem map_update_split (f : Post → Post) (eid : String) (l₁ l₂ : List Post) (p : Post)
    (hpid : p.id = eid) (hothers : ∀ q ∈ l₁ ++ l₂, q.id ≠ eid) :
    ((l₁ ++ p :: l₂).map fun q => if q.id = eid then f q else q) = l₁ ++ f p :: l₂ := by
  rw [List.map_append, List.map_cons, if_pos hpid]
  rw [map_update_id f eid l₁ fun q hq => hothers q (List.mem_append_left _ hq)]
  rw [map_update_id f eid l₂ fun q hq => hothers q (List.mem_append_right _ hq)]

/-- Filtering out an id that occurs nowhere in a list keeps the list. -/
theorem filter_keep_id (pid : String) (l : List Post) (hl : ∀ q ∈ l, q.id ≠ pid) :
    (l.filter fun x => !(x.id == pid)) = l :=
  List.filter_eq_self.mpr fun a ha => by simp [hl a ha]

/-- Filtering out an id whose only occurrence is `p` removes exactly
that entry. -/
theorem filter_remove_split (pid : String) (l₁ l₂ : List Post) (p : Post)
    (hpid : p.id = pid) (hothers : ∀ q ∈ l₁ ++ l₂, q.id ≠ pid) :
    ((l₁ ++ p :: l₂).filter fun x => !(x.id == pid)) = l₁ ++ l₂ := by
  rw [List.filter_append, List.filter_cons]
  rw [if_neg (by simp [hpid])]
  rw [filter_keep_id pid l₁ fun q hq => hothers q (List.mem_append_left _ hq)]
  rw [filter_keep_id pid l₂ fun q hq => hothers q (List.mem_append_right _ hq)]

/-- The element sitting right after a prefix of length `l₁.length`. -/
theorem getElem_append_mid {α : Type} (x : α) :
    ∀ (l₁ l₂ : List α), (l₁ ++ x :: l₂)[l₁.length]? = some x
  | [], _ => by simp
  | a :: t, l₂ => by
      simpa using getElem_append_mid x t l₂

/-! ### Concrete sample data for the evaluation witnesses -/

/-- A post with no image. -/
def post1 : Post :=
  { id := "a1", imageDataUrl := none, title := "Trip", comment := "Great day", createdAt := 10 }

/-- A post with an image and empty comment. -/
def post2 : Post :=
  { id := "b2", imageDataUrl := some "data:image/png;base64,xyz", title := "Pic",
    comment := "", createdAt := 20 }

/-- A third post. -/
def post3 : Post :=
  { id := "c3", imageDataUrl := none, title := "Third", comment := "hey", createdAt := 30 }

/-- An Idle-state draft with whitespace-padded title and comment. -/
def sampleIdle : AppState :=
  { posts := [post1, post2], editingId := none, title := "  My Title  ",
    comment := "  hola  ", imageFile := none, imagePreview := none, theme := "light" }

/-- An Editing-state draft targeting `post2`. -/
def sampleEditing : AppState :=
  { posts := [post1, post2, post3], editingId := some "b2", title := "New",
    comment := "updated", imageFile := none, imagePreview := some "data:new",
    theme := "dark" }

/-- A state whose `editingId` refers to no present post. -/
def sampleStale : AppState :=
  { posts := [post1], editingId := some "zz", title := "", comment := "x",
    imageFile := some "f.png", imagePreview := none, theme := "light" }

/-- A draft with whitespace-only comment and no image. -/
def sampleInvalid : AppState :=
  { posts := [post1], editingId := none, title := "T", comment := "   ",
    imageFile := none, imagePreview := none, theme := "light" }

/-- An Idle-state draft with empty title. -/
def sampleUntitled : AppState :=
  { posts := [], editingId := none, title := "", comment := "second",
    imageFile := none, imagePreview := none, theme := "light" }

/-! ### Claims -/

/-- Claim C1: in the Idle state (`editingId` unset), a submission whose
trimmed comment is non-empty or whose image preview is present
constructs a new post from the freshly generated id, the current
timestamp, the trimmed (placeholder-defaulted) title, the trimmed
comment and the draft image, and prepends it to `posts`; the length
grows by exactly one and all previous posts keep their values and
relative order. -/
theorem C1_idle_submit_prepends (newId : String) (now : Nat) (st : AppState)
    (hidle : st.editingId = none) (hvalid : DraftOk st) :
    (handleAddOrUpdate newId now st).posts =
      { id := newId
        imageDataUrl := st.imagePreview
        title := storedTitle st
        comment := jsTrim st.comment
        createdAt := now } :: st.posts ∧
    (handleAddOrUpdate newId now st).posts.length = st.posts.length + 1 := by
  rw [submit_create_eq newId now st (Or.inl hidle) hvalid]
  exact ⟨rfl, by simp [mkNewPost]⟩

/-- Witness for C1 at a concrete Idle state. -/
theorem C1_witness :
    (handleAddOrUpdate "n9" 99 sampleIdle).posts =
      { id := "n9", imageDataUrl := none, title := "My Title", comment := "hola",
        createdAt := 99 } :: sampleIdle.posts ∧
    (handleAddOrUpdate "n9" 99 sampleIdle).posts.length = sampleIdle.posts.length + 1 := by
  have h := C1_idle_submit_prepends "n9" 99 sampleIdle rfl (by decide)
  have e1 : storedTitle sampleIdle = "My Title" := by decide
  have e2 : jsTrim sampleIdle.comment = "hola" := by decide
  rw [e1, e2] at h
  exact h

/-- Claim C2: when `editingId` refers to a post present in `posts`
(and no other post carries that id), a valid submission replaces only
that post's `title`, `comment` and `imageDataUrl` with the draft's
trimmed values; its `id` and `createdAt` are unchanged, every other
post is unchanged and the order of the list is unchanged. -/
theorem C2_edit_updates_only_target (newId : String) (now : Nat) (st : AppState)
    (eid : String) (l₁ l₂ : List Post) (p : Post)
    (heid : st.editingId = some eid) (hne : eid ≠ "")
    (hsplit : st.posts = l₁ ++ p :: l₂) (hpid : p.id = eid)
    (hothers : ∀ q ∈ l₁ ++ l₂, q.id ≠ eid)
    (hvalid : DraftOk st) :
    (handleAddOrUpdate newId now st).posts = l₁ ++ updatedPost st p :: l₂ ∧
    (updatedPost st p).id = p.id ∧
    (updatedPost st p).createdAt = p.createdAt ∧
    (updatedPost st p).title = storedTitle st ∧
    (updatedPost st p).comment = jsTrim st.comment ∧
    (updatedPost st p).imageDataUrl = st.imagePreview := by
  rw [submit_update_eq newId now st eid heid hne hvalid]
  refine ⟨?_, rfl, rfl, rfl, rfl, rfl⟩
  show (st.posts.map fun q => if q.id = eid then updatedPost st q else q)
      = l₁ ++ updatedPost st p :: l₂
  rw [hsplit]
  exact map_update_split (updatedPost st) eid l₁ l₂ p hpid hothers

/-- Witness for C2 at a concrete Editing state. -/
theorem C2_witness :
    (handleAddOrUpdate "n0" 7 sampleEditing).posts
      = [post1] ++ updatedPost sampleEditing post2 :: [post3] ∧
    (updatedPost sampleEditing post2).id = post2.id ∧
    (updatedPost sampleEditing post2).createdAt = post2.createdAt ∧
    (updatedPost sampleEditing post2).title = storedTitle sampleEditing ∧
    (updatedPost sampleEditing post2).comment = jsTrim sampleEditing.comment ∧
    (updatedPost sampleEditing post2).imageDataUrl = sampleEditing.imagePreview :=
  C2_edit_updates_only_target "n0" 7 sampleEditing "b2" [post1] [post3] post2
    rfl (by decide) rfl rfl (by decide) (by decide)

/-- Claim C3: a submission whose trimmed comment is empty and whose
image preview is absent is a no-op in either state: the whole state
(posts, draft fields, `editingId`) is returned unchanged; the only
effect is the refocus side effect outside the state. -/
theorem C3_invalid_submit_noop (newId : String) (now : Nat) (st : AppState)
    (hc : jsTrim st.comment = "") (hi : truthy st.imagePreview = false) :
    handleAddOrUpdate newId now st = st :=
  submit_invalid_eq newId now st hc hi

/-- Witness for C3 at a whitespace-only comment with no image. -/
theorem C3_witness : handleAddOrUpdate "w" 5 sampleInvalid = sampleInvalid :=
  C3_invalid_submit_noop "w" 5 sampleInvalid (by decide) (by decide)

/-- Claim C4: on a posts list with pairwise-distinct ids containing
the target id, `removePost` with the confirmation accepted removes
exactly that post and preserves the others and their order; with the
confirmation declined the state is returned identically. -/
theorem C4_remove_post (pid : String) (st : AppState) (l₁ l₂ : List Post) (p : Post)
    (hsplit : st.posts = l₁ ++ p :: l₂) (hpid : p.id = pid)
    (hothers : ∀ q ∈ l₁ ++ l₂, q.id ≠ pid) :
    (removePost true pid st).posts = l₁ ++ l₂ ∧
    removePost false pid st = st := by
  constructor
  · show (st.posts.filter fun x => !(x.id == pid)) = l₁ ++ l₂
    rw [hsplit]
    exact filter_remove_split pid l₁ l₂ p hpid hothers
  · rfl

/-- Witness for C4 at a concrete three-post list. -/
theorem C4_witness :
    (removePost true "b2" sampleEditing).posts = [post1] ++ [post3] ∧
    removePost false "b2" sampleEditing = sampleEditing :=
  C4_remove_post "b2" sampleEditing [post1] [post3] post2 rfl rfl (by decide)

/-- Claim C5: every post inserted or updated by a submission satisfies
the data-model invariant (non-empty comment or present image); both
the create and the update branch preserve it for every post, and
delete, begin-edit, clear-form, emoji append and theme toggle never
introduce a violating post (the last four never change `posts` at
all). -/
theorem C5_invariant_preserved :
    (∀ (newId : String) (now : Nat) (st : AppState),
        (∀ p ∈ st.posts, PostValid p) →
        ∀ p ∈ (handleAddOrUpdate newId now st).posts, PostValid p) ∧
    (∀ (c : Bool) (pid : String) (st : AppState),
        (∀ p ∈ st.posts, PostValid p) →
        ∀ p ∈ (removePost c pid st).posts, PostValid p) ∧
    (∀ (pid : String) (st : AppState), (startEdit pid st).posts = st.posts) ∧
    (∀ st : AppState, (clearForm st).posts = st.posts) ∧
    (∀ (e : String) (st : AppState), (handleEmojiClick e st).posts = st.posts) ∧
    (∀ st : AppState, (toggleTheme st).posts = st.posts) := by
  refine ⟨?_, ?_, ?_, fun st => rfl, fun e st => rfl, fun st => rfl⟩
  · intro newId now st hinv
    by_cases hvalid : DraftOk st
    · have hnew : PostValid (mkNewPost newId now (storedTitle st) (jsTrim st.comment)
          st.imagePreview) := hvalid
      cases he : st.editingId with
      | none =>
          rw [submit_create_eq newId now st (Or.inl he) hvalid]
          intro p hp
          rcases List.mem_cons.mp hp with h | h
          · rw [h]; exact hnew
          · exact hinv p h
      | some eid =>
          by_cases heq : eid = ""
          · rw [submit_create_eq newId now st (Or.inr (by rw [he, heq])) hvalid]
            intro p hp
            rcases List.mem_cons.mp hp with h | h
            · rw [h]; exact hnew
            · exact hinv p h
          · rw [submit_update_eq newId now st eid he heq hvalid]
            intro p hp
            simp only [List.mem_map] at hp
            obtain ⟨q, hq, hfq⟩ := hp
            by_cases hcond : q.id = eid
            · rw [← hfq, if_pos hcond]
              exact hvalid
            · rw [← hfq, if_neg hcond]
              exact hinv q hq
    · have hc : jsTrim st.comment = "" := by
        by_contra hc
        exact hvalid (Or.inl hc)
      have hi : truthy st.imagePreview = false := by
        rcases Bool.eq_false_or_eq_true (truthy st.imagePreview) with h | h
        · exact absurd (Or.inr h) hvalid
        · exact h
      rw [submit_invalid_eq newId now st hc hi]
      exact hinv
  · intro c pid st hinv p hp
    cases c with
    | false => exact hinv p hp
    | true =>
        have hp' : p ∈ st.posts.filter fun x => !(x.id == pid) := hp
        exact hinv p (List.mem_of_mem_filter hp')
  · intro pid st
    unfold startEdit
    cases st.posts.find? fun x => x.id == pid with
    | none => rfl
    | some p => rfl

/-- Witness for C5: the freshly created post of the C1 scenario
satisfies the invariant. -/
theorem C5_witness :
    PostValid { id := "n9", imageDataUrl := none, title := "My Title", comment := "hola",
                createdAt := 99 } :=
  C5_invariant_preserved.1 "n9" 99 sampleIdle (by decide)
    { id := "n9", imageDataUrl := none, title := "My Title", comment := "hola",
      createdAt := 99 } (by decide)

/-- Counterexample to C6 as stated: submitting an empty title stores
the Spanish placeholder `"Sin título"`, not `"Untitled"`. -/
theorem C6_counterexample :
    (handleAddOrUpdate "a" 0 sampleUntitled).posts.map Post.title = ["Sin título"] ∧
    ("Sin título" : String) ≠ "Untitled" := by
  decide

/-- Claim C6 (amended): the stored title is the draft title with
surrounding whitespace trimmed, and when empty after trimming the
placeholder `"Sin título"` is substituted — on the create branch (the
head of the new list) and on the update branch (the updated entry)
alike. -/
theorem C6_title_normalization (newId : String) (now : Nat) (st : AppState)
    (hvalid : DraftOk st) :
    (st.editingId = none →
        (handleAddOrUpdate newId now st).posts.head?.map Post.title
          = some (storedTitle st)) ∧
    (∀ (eid : String) (l₁ l₂ : List Post) (p : Post),
        st.editingId = some eid → eid ≠ "" → st.posts = l₁ ++ p :: l₂ → p.id = eid →
        (∀ q ∈ l₁ ++ l₂, q.id ≠ eid) →
        ((handleAddOrUpdate newId now st).posts[l₁.length]?).map Post.title
          = some (storedTitle st)) ∧
    storedTitle st = (if jsTrim st.title = "" then "Sin título" else jsTrim st.title) := by
  refine ⟨?_, ?_, rfl⟩
  · intro hidle
    rw [submit_create_eq newId now st (Or.inl hidle) hvalid]
    rfl
  · intro eid l₁ l₂ p heid hne hsplit hpid hothers
    rw [submit_update_eq newId now st eid heid hne hvalid]
    show (((st.posts.map fun q => if q.id = eid then updatedPost st q else q))[l₁.length]?).map
        Post.title = some (storedTitle st)
    rw [hsplit, map_update_split (updatedPost st) eid l₁ l₂ p hpid hothers,
        getElem_append_mid]
    rfl

/-- Witness for C6: empty title stores the placeholder, a padded title
stores its trimmed form. -/
theorem C6_witness :
    (handleAddOrUpdate "n1" 3 sampleIdle).posts.head?.map Post.title = some "My Title" ∧
    (handleAddOrUpdate "n1" 3 sampleUntitled).posts.head?.map Post.title
      = some "Sin título" := by
  constructor
  · have h := (C6_title_normalization "n1" 3 sampleIdle (by decide)).1 rfl
    have e : storedTitle sampleIdle = "My Title" := by decide
    rw [e] at h
    exact h
  · have h := (C6_title_normalization "n1" 3 sampleUntitled (by decide)).1 rfl
    have e : storedTitle sampleUntitled = "Sin título" := by decide
    rw [e] at h
    exact h

/-- Counterexample to C7 as stated: a malformed stored theme value
(for example `"blue"`) is kept verbatim at startup, it is not replaced
by the light theme. -/
theorem C7_counterexample :
    loadTheme (some "blue") = "blue" ∧ ("blue" : String) ≠ "light" := by
  decide

/-- Claim C7 (amended): startup loading is total — a missing posts key
or an unparseable posts value yields the empty list, a parseable value
is used as is; a missing theme key yields the light theme, while any
present theme value (malformed ones included) is used verbatim. -/
theorem C7_load_defaults :
    loadPosts none = [] ∧
    loadPosts (some none) = [] ∧
    (∀ ps : List Post, loadPosts (some (some ps)) = ps) ∧
    loadTheme none = "light" ∧
    (∀ t : String, loadTheme (some t) = t) :=
  ⟨rfl, rfl, fun _ => rfl, rfl, fun _ => rfl⟩

/-- One encoded post decodes back to itself. -/
theorem decodePost_encodePost (p : Post) : decodePost (encodePost p) = some p := by
  cases p with
  | mk i img t c ca => cases img <;> rfl

/-- An encoded post list decodes back to itself, element by element. -/
theorem decodePostList_map (ps : List Post) :
    decodePostList (ps.map encodePost) = some ps := by
  induction ps with
  | nil => rfl
  | cons p t ih => simp [decodePostList, decodePost_encodePost, ih]

/-- Claim C8: serializing any posts list (with or without images) and
loading it back yields exactly the original collection: same length,
same order, all fields equal. -/
theorem C8_roundtrip (ps : List Post) : decodePosts (encodePosts ps) = some ps := by
  show decodePostList (ps.map encodePost) = some ps
  exact decodePostList_map ps

/-- Claim C9: the theme toggle is an involution on {light, dark}:
toggling twice restores the original value, and a single toggle always
yields the other of the two values. -/
theorem C9_toggle_involution (st : AppState)
    (h : st.theme = "light" ∨ st.theme = "dark") :
    (toggleTheme (toggleTheme st)).theme = st.theme ∧
    (toggleTheme st).theme ≠ st.theme ∧
    (st.theme = "light" → (toggleTheme st).theme = "dark") ∧
    (st.theme = "dark" → (toggleTheme st).theme = "light") := by
  rcases h with h | h <;> simp [toggleTheme, h]

/-- Witness for C9 at the light theme. -/
theorem C9_witness :
    (toggleTheme (toggleTheme sampleIdle)).theme = sampleIdle.theme ∧
    (toggleTheme sampleIdle).theme ≠ sampleIdle.theme ∧
    (sampleIdle.theme = "light" → (toggleTheme sampleIdle).theme = "dark") ∧
    (sampleIdle.theme = "dark" → (toggleTheme sampleIdle).theme = "light") :=
  C9_toggle_involution sampleIdle (Or.inl rfl)

/-- Claim C10: when `editingId` holds an id present on no post and the
draft passes validation, submitting leaves `posts` unchanged element
for element but clears the whole draft and `editingId`, returning to
the Idle state. -/
theorem C10_stale_edit_clears (newId : String) (now : Nat) (st : AppState) (eid : String)
    (heid : st.editingId = some eid) (hne : eid ≠ "")
    (hstale : ∀ p ∈ st.posts, p.id ≠ eid)
    (hvalid : DraftOk st) :
    handleAddOrUpdate newId now st =
      { posts := st.posts
        editingId := none
        title := ""
        comment := ""
        imageFile := none
        imagePreview := none
        theme := st.theme } := by
  rw [submit_update_eq newId now st eid heid hne hvalid]
  rw [map_update_id (updatedPost st) eid st.posts hstale]

/-- Witness for C10 at a concrete stale-id state. -/
theorem C10_witness :
    handleAddOrUpdate "w1" 8 sampleStale =
      { posts := sampleStale.posts
        editingId := none
        title := ""
        comment := ""
        imageFile := none
        imagePreview := none
        theme := sampleStale.theme } :=
  C10_stale_edit_clears "w1" 8 sampleStale "zz" rfl (by decide) (by decide) (by decide)

end MiniSocial
